import Mathlib

/-!
Verification of the Extraction and Recipe-Resolution Engine of the
AssetRipperManager (rust-api). The engine is shallowly embedded: JavaScript
numbers become an explicit NaN-or-rational type, JavaScript objects become
Lean structures whose field sets mirror the object literals in the source,
regular-expression field extraction over file text becomes character-list
scanners that implement the exact patterns used by the code, and each
pipeline stage (prefab parsing, JSON loading, merging, recipe resolution,
summary derivation) becomes a pure Lean function.
-/

/-- A JavaScript number as produced by parseInt and parseFloat: either NaN or
a rational value (decimal literals are represented exactly). -/
inductive JsNum where
  | nan : JsNum
  | num : Rat → JsNum
deriving DecidableEq

/-- A JavaScript value as stored in the item records: undefined (key absent
or value undefined), null, number, string or boolean. -/
inductive JsVal where
  | undef : JsVal
  | null : JsVal
  | num : JsNum → JsVal
  | str : String → JsVal
  | bool : Bool → JsVal
deriving DecidableEq

/-- Abbreviation for a non-NaN numeric JavaScript value. -/
def jnum (q : Rat) : JsVal := JsVal.num (JsNum.num q)

/-- JavaScript whitespace as matched by the regex class backslash-s and by
String.prototype.trim (ASCII part). -/
def isWs (c : Char) : Bool :=
  c = ' ' || c = '\t' || c = '\n' || c = '\r' || c = '\x0b' || c = '\x0c'

/-- Carriage return or line feed: the characters excluded by the value
captures of the field regexes. -/
def isCrLf (c : Char) : Bool := c = '\r' || c = '\n'

/-- JavaScript String.prototype.trim on a character list. -/
def trimJs (s : List Char) : List Char :=
  ((s.dropWhile isWs).reverse.dropWhile isWs).reverse

/-- Value of a list of decimal digit characters. -/
def digitsVal (l : List Char) : Nat :=
  l.foldl (fun n c => 10 * n + (c.toNat - 48)) 0

/-- Hexadecimal digit test. -/
def isHexDig (c : Char) : Bool :=
  c.isDigit || ('a' ≤ c && c ≤ 'f') || ('A' ≤ c && c ≤ 'F')

/-- Value of one hexadecimal digit character. -/
def hexDigitVal (c : Char) : Nat :=
  if c.isDigit then c.toNat - 48
  else if 'a' ≤ c && c ≤ 'f' then c.toNat - 87
  else c.toNat - 55

/-- Value of a list of hexadecimal digit characters. -/
def hexVal (l : List Char) : Nat :=
  l.foldl (fun n c => 16 * n + hexDigitVal c) 0

/-- Decimal branch of parseInt: longest digit run, NaN when empty. -/
def parseIntDec (sgn : Int) (t : List Char) : JsNum :=
  let ds := t.takeWhile Char.isDigit
  if ds.isEmpty then JsNum.nan
  else JsNum.num ((sgn * (digitsVal ds : Int) : Int) : Rat)

/-- Hexadecimal branch of parseInt, entered after a 0x or 0X marker. -/
def parseIntHex (sgn : Int) (t : List Char) : JsNum :=
  let hs := t.takeWhile isHexDig
  if hs.isEmpty then JsNum.nan
  else JsNum.num ((sgn * (hexVal hs : Int) : Int) : Rat)

/-- parseInt after sign processing: a 0x or 0X marker selects radix 16,
otherwise radix 10. -/
def parseIntCore (sgn : Int) (t : List Char) : JsNum :=
  match t with
  | '0' :: 'x' :: r => parseIntHex sgn r
  | '0' :: 'X' :: r => parseIntHex sgn r
  | _ => parseIntDec sgn t

/-- JavaScript parseInt with no radix argument: skip whitespace, optional
sign, then a decimal (or 0x-marked hexadecimal) digit run; NaN when no digit
is found. -/
def parseIntJs (s : List Char) : JsNum :=
  match s.dropWhile isWs with
  | '-' :: r => parseIntCore (-1) r
  | '+' :: r => parseIntCore 1 r
  | r => parseIntCore 1 r

/-- JavaScript parseFloat: skip whitespace, optional sign, integer digits,
optional fraction, optional exponent; NaN when no digit is found before the
exponent. Decimal values are represented exactly as rationals. -/
def parseFloatJs (s : List Char) : JsNum :=
  let t := s.dropWhile isWs
  let sgnt : Int × List Char :=
    match t with
    | '-' :: r => (-1, r)
    | '+' :: r => (1, r)
    | r => (1, r)
  let sgn := sgnt.1
  let t1 := sgnt.2
  let intD := t1.takeWhile Char.isDigit
  let t2 := t1.drop intD.length
  let fr : List Char × List Char :=
    match t2 with
    | '.' :: r => (r.takeWhile Char.isDigit, r.drop (r.takeWhile Char.isDigit).length)
    | _ => ([], t2)
  let fracD := fr.1
  let t3 := fr.2
  if intD.isEmpty && fracD.isEmpty then JsNum.nan
  else
    let mant : Rat := ((sgn * (digitsVal (intD ++ fracD) : Int) : Int) : Rat) / ((10 : Rat) ^ fracD.length)
    match t3 with
    | 'e' :: r => parseFloatExp mant r
    | 'E' :: r => parseFloatExp mant r
    | _ => JsNum.num mant
where
  /-- Exponent part: optional sign then digits; an empty digit run leaves the
  mantissa unchanged, as parseFloat ignores a dangling exponent marker. -/
  parseFloatExp (mant : Rat) (r : List Char) : JsNum :=
    let esgnt : Int × List Char :=
      match r with
      | '-' :: rr => (-1, rr)
      | '+' :: rr => (1, rr)
      | rr => (1, rr)
    let eD := esgnt.2.takeWhile Char.isDigit
    if eD.isEmpty then JsNum.num mant
    else JsNum.num (mant * (10 : Rat) ^ (esgnt.1 * (digitsVal eD : Int)))

/-- Backtracking step of a capture of the form backslash-s-star followed by a
one-or-more run of characters outside excl: try the largest whitespace-prefix
length first, then give back whitespace characters one at a time. -/
def capBt (excl : Char → Bool) (rest : List Char) : Nat → Option (List Char)
  | 0 =>
    match rest with
    | [] => none
    | c :: cs => if excl c then none else some ((c :: cs).takeWhile (fun d => !excl d))
  | k + 1 =>
    match rest.drop (k + 1) with
    | [] => capBt excl rest k
    | c :: cs =>
      if excl c then capBt excl rest k
      else some ((c :: cs).takeWhile (fun d => !excl d))

/-- Capture of backslash-s-star then a one-or-more run outside excl, with the
regex backtracking order (greedy whitespace first). -/
def capWs (excl : Char → Bool) (rest : List Char) : Option (List Char) :=
  capBt excl rest (rest.takeWhile isWs).length

/-- Leftmost match of a regex of the shape KEY backslash-s-star CAPTURE where
the capture is a one-or-more run of characters outside excl; returns the
capture group. -/
def scanKeyExcl (key : List Char) (excl : Char → Bool) : List Char → Option (List Char)
  | [] => none
  | s@(_ :: rest) =>
    if key.isPrefixOf s then
      match capWs excl (s.drop key.length) with
      | some v => some v
      | none => scanKeyExcl key excl rest
    else scanKeyExcl key excl rest

/-- Leftmost match of KEY backslash-s-star then a run of non-newline
characters, the common field pattern of parsePrefabFile. -/
def scanKey1 (key : List Char) (s : List Char) : Option (List Char) :=
  scanKeyExcl key isCrLf s

/-- One-based building blocks of the field patterns used by the source. -/
def itemidKey : List Char := "itemid:".toList

def shortnameKey : List Char := "shortname:".toList

def displayNameKeyChars : List Char := "displayName:".toList

def tokenKey : List Char := "token:".toList

def categoryKey : List Char := "category:".toList

def stackableKey : List Char := "stackable:".toList

def volumeKey : List Char := "volume:".toList

def ingredientsKey : List Char := "ingredients:".toList

def timeKey : List Char := "time:".toList

def amountToCreateKey : List Char := "amountToCreate:".toList

def workbenchKey : List Char := "workbenchLevelRequired:".toList

def amountKey : List Char := "amount:".toList

def fileIDKey : List Char := "fileID:".toList

def itemDefKey : List Char := "itemDef:".toList

def pathIDKey : List Char := "!u!114 &".toList

def prefabExtChars : List Char := ".prefab".toList

/-- Leftmost match of the pattern displayName-colon, a lazy any-character gap,
then token-colon with a value capture: the nested display-name token. -/
def scanDisplayName : List Char → Option (List Char)
  | [] => none
  | s@(_ :: rest) =>
    if displayNameKeyChars.isPrefixOf s then
      match scanKey1 tokenKey (s.drop displayNameKeyChars.length) with
      | some v => some v
      | none => scanDisplayName rest
    else scanDisplayName rest

/-- Leftmost match of the MonoBehaviour object-id pattern: the literal
bang-u-bang-114-ampersand then a digit run capture. -/
def scanPathID : List Char → Option (List Char)
  | [] => none
  | s@(_ :: rest) =>
    if pathIDKey.isPrefixOf s then
      let ds := (s.drop pathIDKey.length).takeWhile Char.isDigit
      if ds.isEmpty then scanPathID rest else some ds
    else scanPathID rest

/-- Attempt of the itemDef block pattern at the start of s: the literal
itemDef-colon, greedy whitespace, an open brace, a nonempty run of non-brace
characters, a close brace; returns the full matched text. -/
def tryItemDefAt (s : List Char) : Option (List Char) :=
  if itemDefKey.isPrefixOf s then
    let r := s.drop itemDefKey.length
    let wsp := r.takeWhile isWs
    match r.drop wsp.length with
    | '\x7b' :: r2 =>
      let body := r2.takeWhile (fun c => c ≠ '\x7d')
      if body.isEmpty then none
      else
        match r2.drop body.length with
        | '\x7d' :: _ => some (itemDefKey ++ wsp ++ '\x7b' :: (body ++ ['\x7d']))
        | _ => none
    | _ => none
  else none

/-- Fuel-indexed scan for successive non-overlapping matches of the itemDef
block pattern; every step consumes at least one character, so fuel equal to
the text length is always sufficient. -/
def scanItemDefBlocksAux : Nat → List Char → List (List Char)
  | 0, _ => []
  | _, [] => []
  | fuel + 1, s@(_ :: rest) =>
    match tryItemDefAt s with
    | some m => m :: scanItemDefBlocksAux fuel (s.drop (max m.length 1))
    | none => scanItemDefBlocksAux fuel rest

/-- All successive non-overlapping matches of the itemDef block pattern, in
order, as the global regex flag produces them. -/
def scanItemDefBlocks (s : List Char) : List (List Char) :=
  scanItemDefBlocksAux s.length s

/-- First index of pat as a substring of s, if any. -/
def findSubstrIdx (pat : List Char) : List Char → Option Nat
  | [] => if pat.isEmpty then some 0 else none
  | s@(_ :: rest) =>
    if pat.isPrefixOf s then some 0
    else (findSubstrIdx pat rest).map (· + 1)

/-- Whether pat occurs as a substring of s, as the presence-only regexes
test. -/
def hasSubstr (pat : List Char) (s : List Char) : Bool :=
  (findSubstrIdx pat s).isSome

/-- JavaScript String.prototype.indexOf: first index or minus one. -/
def jsIndexOf (pat : List Char) (s : List Char) : Int :=
  match findSubstrIdx pat s with
  | some n => (n : Int)
  | none => -1

/-- The excluded-character set of the fileID capture: newline, comma and
close brace. -/
def exclFileID (c : Char) : Bool := isCrLf c || c = ',' || c = '\x7d'

/-- Node path.basename: the final path component. -/
def baseName (p : List Char) : List Char :=
  (p.reverse.takeWhile (fun c => c ≠ '/')).reverse

/-- Node path.basename with an extension argument: the final component with
the extension removed when it is a proper suffix. -/
def baseNameExt (p : List Char) (ext : List Char) : List Char :=
  let b := baseName p
  if ext.isSuffixOf b && b ≠ ext then b.take (b.length - ext.length) else b

/-- One crafting-ingredient reference: an amount and a nested itemDef object
holding the internal object identifier, plus the resolved names that the
recipe resolver may add (absent before resolution). -/
structure ItemDefRef where
  m_PathID : JsNum
  shortname : Option String
  displayName : Option String
deriving DecidableEq

structure Ingredient where
  amount : JsNum
  itemDef : ItemDefRef
deriving DecidableEq

/-- An item record of the pipeline: the union of the key sets of the three
object literals that build items (the prefab ItemDefinition literal, the
prefab ItemBlueprint literal, and the JSON item literal). A field an object
does not carry is none or JsVal.undef, mirroring an absent key. -/
structure UItem where
  type : Option String
  pathId : JsVal
  shortname : String
  displayName : String
  itemid : JsVal
  category : JsVal
  categoryName : JsVal
  stackable : JsVal
  volume : JsVal
  ingredients : List Ingredient
  craftTime : JsVal
  amountToCreate : JsVal
  workbenchLevelRequired : JsVal
  sourceFile : Option String
  description : Option String
  categoryId : Option JsVal
  maxDraggable : Option JsVal
  itemType : Option String
  amountType : Option String
  quickDespawn : Option Bool
  rarity : Option String
  condition : Option JsVal
  parent : Option JsVal
  isWearable : Option Bool
  isHoldable : Option Bool
  isUsable : Option Bool
  hasSkins : Option Bool
  workbenchLevel : Option JsVal
  source : Option String
deriving DecidableEq

/-- The record built for one JSON item-definition file by extractJsonItems:
exactly the keys of the JSON item object literal. -/
structure JsonItem where
  itemid : Rat
  shortname : String
  displayName : String
  description : String
  category : String
  categoryId : JsVal
  stackable : Rat
  volume : Rat
  maxDraggable : Rat
  itemType : String
  amountType : String
  quickDespawn : Bool
  rarity : String
  condition : JsVal
  parent : Rat
  isWearable : Bool
  isHoldable : Bool
  isUsable : Bool
  hasSkins : Bool
  ingredients : List Ingredient
  craftTime : Rat
  amountToCreate : Rat
  workbenchLevel : Rat
  source : String
deriving DecidableEq

/-- The parsed content of one JSON item-definition file: the fields the
loader reads, each possibly absent. JSON numbers carry no NaN. -/
structure JsonItemData where
  itemid : Option Rat
  shortname : Option String
  Name : Option String
  Description : Option String
  Category : Option Int
  stackable : Option Rat
  volume : Option Rat
  maxDraggable : Option Rat
  ItemType : Option String
  AmountType : Option String
  quickDespawn : Option Bool
  rarity : Option String
  condition : Option Rat
  Parent : Option Rat
  isWearable : Option Bool
  isHoldable : Option Bool
  isUsable : Option Bool
  HasSkins : Option Bool
deriving DecidableEq

/-- The fixed Rust item category table of the manager constructor. -/
def categoryTable : List (Int × String) :=
  [(0, "Weapon"), (1, "Construction"), (2, "Items"), (3, "Resources"),
   (4, "Attire"), (5, "Tool"), (6, "Medical"), (7, "Food"),
   (8, "Ammunition"), (9, "Traps"), (10, "Misc"), (13, "Deployable"),
   (14, "Component"), (16, "Vehicle"), (17, "Electrical")]

/-- Lookup in the category table, none for codes outside it. -/
def categoryMap (n : Int) : Option String :=
  (categoryTable.find? (fun p => p.1 == n)).map (fun p => p.2)

/-- Truthiness of an optional JSON number (absent, zero are falsy). -/
def truthyRat (o : Option Rat) : Bool :=
  match o with
  | some q => q != 0
  | none => false

/-- Truthiness of an optional JSON string (absent, empty are falsy). -/
def truthyStr (o : Option String) : Bool :=
  match o with
  | some s => s != ""
  | none => false

/-- The record built by parsePrefabFile for an ItemDefinition, from the item
field captures av, bv, cv (itemid, shortname, display-name token). -/
def mkItemRecord (content fp av bv cv : List Char) : UItem :=
  let itemid := parseIntJs (trimJs av)
  let shortname := String.mk (trimJs bv)
  let displayName0 := String.mk (trimJs cv)
  let category0 : Option JsNum :=
    match scanKey1 categoryKey content with
    | some v => some (parseIntJs (trimJs v))
    | none => none
  let stackable : JsVal :=
    match scanKey1 stackableKey content with
    | some v => JsVal.num (parseIntJs (trimJs v))
    | none => JsVal.null
  let volume : JsVal :=
    match scanKey1 volumeKey content with
    | some v => JsVal.num (parseIntJs (trimJs v))
    | none => JsVal.null
  let isFrag := shortname == "basicblueprintfragment" || shortname == "advancedblueprintfragment"
  let displayName :=
    if isFrag then
      if shortname == "basicblueprintfragment" then "Basic Blueprint Fragment"
      else "Advanced Blueprint Fragment"
    else displayName0
  let category : Option JsNum := if isFrag then some (JsNum.num 14) else category0
  let pathId : JsVal :=
    match scanPathID content with
    | some ds => JsVal.num (parseIntJs ds)
    | none => JsVal.null
  { type := some "ItemDefinition"
    pathId := pathId
    shortname := shortname
    displayName := displayName
    itemid := JsVal.num itemid
    category := match category with
      | some c => JsVal.num c
      | none => JsVal.null
    categoryName := match category with
      | some (JsNum.num q) => JsVal.str (if q.den = 1 then (categoryMap q.num).getD "Unknown" else "Unknown")
      | some JsNum.nan => JsVal.str "Unknown"
      | none => JsVal.null
    stackable := stackable
    volume := volume
    ingredients := []
    craftTime := JsVal.null
    amountToCreate := JsVal.null
    workbenchLevelRequired := JsVal.null
    sourceFile := some (String.mk (baseName fp))
    description := none
    categoryId := none
    maxDraggable := none
    itemType := none
    amountType := none
    quickDespawn := none
    rarity := none
    condition := none
    parent := none
    isWearable := none
    isHoldable := none
    isUsable := none
    hasSkins := none
    workbenchLevel := none
    source := none }

/-- The ingredient list of an ItemBlueprint: for each itemDef block with a
fileID capture, the first amount field after the first occurrence of the
block text is paired with it; blocks with no amount are silently skipped. -/
def mkBpIngredients (content : List Char) : List Ingredient :=
  (scanItemDefBlocks content).filterMap (fun blk =>
    match scanKeyExcl fileIDKey exclFileID blk with
    | none => none
    | some fid =>
      let after := content.drop (Int.toNat (jsIndexOf blk content + (blk.length : Int)))
      match scanKey1 amountKey after with
      | none => none
      | some am =>
        some { amount := parseIntJs (trimJs am)
               itemDef := { m_PathID := parseIntJs (trimJs fid)
                            shortname := none
                            displayName := none } })

/-- The record built by parsePrefabFile for an ItemBlueprint, from the time
and amountToCreate captures tv, av. -/
def mkBpRecord (content fp tv av : List Char) : UItem :=
  { type := some "ItemBlueprint"
    pathId := JsVal.null
    shortname := match scanKey1 shortnameKey content with
      | some v => String.mk (trimJs v)
      | none => String.mk (baseNameExt fp prefabExtChars)
    displayName := match scanDisplayName content with
      | some v => String.mk (trimJs v)
      | none => String.mk (baseNameExt fp prefabExtChars)
    itemid := match scanKey1 itemidKey content with
      | some v => JsVal.num (parseIntJs (trimJs v))
      | none => JsVal.null
    category := JsVal.null
    categoryName := JsVal.undef
    stackable := JsVal.null
    volume := JsVal.null
    ingredients := mkBpIngredients content
    craftTime := JsVal.num (parseFloatJs (trimJs tv))
    amountToCreate := JsVal.num (parseIntJs (trimJs av))
    workbenchLevelRequired := match scanKey1 workbenchKey content with
      | some v => JsVal.num (parseIntJs (trimJs v))
      | none => JsVal.null
    sourceFile := some (String.mk (baseName fp))
    description := none
    categoryId := none
    maxDraggable := none
    itemType := none
    amountType := none
    quickDespawn := none
    rarity := none
    condition := none
    parent := none
    isWearable := none
    isHoldable := none
    isUsable := none
    hasSkins := none
    workbenchLevel := none
    source := none }

/-- The ItemDefinition part of parsePrefabFile: a record is pushed exactly
when the itemid, shortname and nested display-name token patterns all
match. -/
def itemPartOf (content fp : List Char) : List UItem :=
  match scanKey1 itemidKey content, scanKey1 shortnameKey content, scanDisplayName content with
  | some av, some bv, some cv => [mkItemRecord content fp av bv cv]
  | _, _, _ => []

/-- The ItemBlueprint part of parsePrefabFile: a record is pushed exactly
when the ingredients marker is present and the time and amountToCreate
patterns match. -/
def bpPartOf (content fp : List Char) : List UItem :=
  match hasSubstr ingredientsKey content, scanKey1 timeKey content, scanKey1 amountToCreateKey content with
  | true, some tv, some av => [mkBpRecord content fp tv av]
  | _, _, _ => []

/-- parsePrefabFile: the item record (when its three required fields match)
followed by the blueprint record (when its three required markers match);
null when neither is produced. -/
def parsePrefabFile (content fp : List Char) : Option (List UItem) :=
  let rs := itemPartOf content fp ++ bpPartOf content fp
  if rs.isEmpty then none else some rs

/-- parsePrefabFile with the null result flattened to the empty list, as the
extraction loop consumes it. -/
def parsePrefabRecords (content fp : List Char) : List UItem :=
  (parsePrefabFile content fp).getD []

/-- The per-file loop of extractAllItems over (path, content) pairs: records
are routed to the items or blueprints list by their type tag. -/
def extractPrefabRecords (files : List (List Char × List Char)) : List UItem × List UItem :=
  files.foldl (fun acc pf =>
    match parsePrefabFile pf.2 pf.1 with
    | some rs => rs.foldl (fun a r =>
        if r.type == some "ItemDefinition" then (a.1 ++ [r], a.2)
        else if r.type == some "ItemBlueprint" then (a.1, a.2 ++ [r])
        else a) acc
    | none => acc) ([], [])

/-- The record built by extractJsonItems for one parsed JSON file, none when
the truthiness test of the three required keys fails. -/
def jsonItemOfData (d : JsonItemData) : Option JsonItem :=
  if truthyRat d.itemid && truthyStr d.shortname && truthyStr d.Name then
    some
      { itemid := d.itemid.getD 0
        shortname := d.shortname.getD ""
        displayName := d.Name.getD ""
        description := d.Description.getD ""
        category := match d.Category with
          | some n => (categoryMap n).getD "Unknown"
          | none => "Unknown"
        categoryId := match d.Category with
          | some n => jnum (n : Rat)
          | none => JsVal.undef
        stackable := match d.stackable with
          | some q => if q != 0 then q else 1
          | none => 1
        volume := d.volume.getD 0
        maxDraggable := d.maxDraggable.getD 0
        itemType := match d.ItemType with
          | some s => if s != "" then s else "Generic"
          | none => "Generic"
        amountType := match d.AmountType with
          | some s => if s != "" then s else "Count"
          | none => "Count"
        quickDespawn := d.quickDespawn.getD false
        rarity := match d.rarity with
          | some s => if s != "" then s else "None"
          | none => "None"
        condition := match d.condition with
          | some q => if q != 0 then jnum q else JsVal.null
          | none => JsVal.null
        parent := d.Parent.getD 0
        isWearable := d.isWearable.getD false
        isHoldable := d.isHoldable.getD false
        isUsable := d.isUsable.getD false
        hasSkins := d.HasSkins.getD false
        ingredients := []
        craftTime := 0
        amountToCreate := 1
        workbenchLevel := 0
        source := "json" }
  else none

/-- The per-file loop of extractJsonItems: a read or parse failure is logged
and skipped, a file failing the required-key truthiness test is skipped
silently, all other files append one record. -/
def extractJsonItemsRun (files : List (Except String JsonItemData)) :
    List JsonItem × List String :=
  files.foldl (fun acc f =>
    match f with
    | Except.ok d =>
      match jsonItemOfData d with
      | some it => (acc.1 ++ [it], acc.2)
      | none => acc
    | Except.error e => (acc.1, acc.2 ++ [e])) ([], [])

/-- The object spread of a JSON record over a prefab item record: every key
of the JSON record literal overrides, every key only the prefab record has
keeps its value. -/
def spreadMerge (p : UItem) (j : JsonItem) : UItem :=
  { type := p.type
    pathId := p.pathId
    shortname := j.shortname
    displayName := j.displayName
    itemid := jnum j.itemid
    category := JsVal.str j.category
    categoryName := p.categoryName
    stackable := jnum j.stackable
    volume := jnum j.volume
    ingredients := j.ingredients
    craftTime := jnum j.craftTime
    amountToCreate := jnum j.amountToCreate
    workbenchLevelRequired := p.workbenchLevelRequired
    sourceFile := p.sourceFile
    description := some j.description
    categoryId := some j.categoryId
    maxDraggable := some (jnum j.maxDraggable)
    itemType := some j.itemType
    amountType := some j.amountType
    quickDespawn := some j.quickDespawn
    rarity := some j.rarity
    condition := some j.condition
    parent := some (jnum j.parent)
    isWearable := some j.isWearable
    isHoldable := some j.isHoldable
    isUsable := some j.isUsable
    hasSkins := some j.hasSkins
    workbenchLevel := some (jnum j.workbenchLevel)
    source := some j.source }

/-- A JSON record appended as a new entry: only the keys of the JSON record
literal are present. -/
def jsonToU (j : JsonItem) : UItem :=
  { type := none
    pathId := JsVal.undef
    shortname := j.shortname
    displayName := j.displayName
    itemid := jnum j.itemid
    category := JsVal.str j.category
    categoryName := JsVal.undef
    stackable := jnum j.stackable
    volume := jnum j.volume
    ingredients := j.ingredients
    craftTime := jnum j.craftTime
    amountToCreate := jnum j.amountToCreate
    workbenchLevelRequired := JsVal.undef
    sourceFile := none
    description := some j.description
    categoryId := some j.categoryId
    maxDraggable := some (jnum j.maxDraggable)
    itemType := some j.itemType
    amountType := some j.amountType
    quickDespawn := some j.quickDespawn
    rarity := some j.rarity
    condition := some j.condition
    parent := some (jnum j.parent)
    isWearable := some j.isWearable
    isHoldable := some j.isHoldable
    isUsable := some j.isUsable
    hasSkins := some j.hasSkins
    workbenchLevel := some (jnum j.workbenchLevel)
    source := some j.source }

/-- Map lookup over the (itemid, record) pairs of the JSON items: the Map
constructor keeps the last entry per key, and get uses SameValueZero. -/
def mapGetLast (js : List JsonItem) (k : JsVal) : Option JsonItem :=
  js.reverse.find? (fun j => jnum j.itemid == k)

/-- One step of the update map of the merge: a prefab item is spread-merged
with its JSON counterpart when one exists. -/
def mergeOne (jsonItems : List JsonItem) (item : UItem) : UItem :=
  match mapGetLast jsonItems item.itemid with
  | some j => spreadMerge item j
  | none => item

/-- The merge of extractAllItems: update every prefab item from the JSON map,
then append the JSON items whose itemid is not among the updated items. -/
def mergeItems (items : List UItem) (jsonItems : List JsonItem) : List UItem :=
  let updated := items.map (mergeOne jsonItems)
  let existing := updated.map (fun it => it.itemid)
  let newJson := jsonItems.filter (fun j => !(existing.contains (jnum j.itemid)))
  updated ++ newJson.map jsonToU

/-- Truthiness of a pathId value, as tested before inserting an item into
the ingredient-lookup map. -/
def pathTruthy : JsVal → Bool
  | JsVal.num (JsNum.num q) => q != 0
  | _ => false

/-- The pathID-to-item map of matchItemsWithBlueprints, observed through get:
the last item with a truthy pathId equal to the key (SameValueZero). -/
def pathLookup (items : List UItem) (k : JsNum) : Option UItem :=
  ((items.filter (fun it => pathTruthy it.pathId)).reverse).find?
    (fun it => it.pathId == JsVal.num k)

/-- The blueprint-by-shortname map, observed through get: the last blueprint
with the given shortname. -/
def blueprintLookup (bps : List UItem) (sn : String) : Option UItem :=
  bps.reverse.find? (fun bp => bp.shortname == sn)

/-- Resolution of one ingredient: a hit in the pathID map adds the resolved
shortname and display name on a copy, a miss keeps the original. -/
def resolveIng (items : List UItem) (ing : Ingredient) : Ingredient :=
  match pathLookup items ing.itemDef.m_PathID with
  | some it =>
    { amount := ing.amount
      itemDef := { m_PathID := ing.itemDef.m_PathID
                   shortname := some it.shortname
                   displayName := some it.displayName } }
  | none => ing

/-- The per-item step of matchItemsWithBlueprints: a matching blueprint
copies its craft fields and resolved ingredients onto the item, otherwise
the crafting fields are cleared. -/
def matchOne (items bps : List UItem) (item : UItem) : UItem :=
  match blueprintLookup bps item.shortname with
  | some bp =>
    { item with
      ingredients := bp.ingredients.map (resolveIng items)
      craftTime := bp.craftTime
      amountToCreate := bp.amountToCreate
      workbenchLevelRequired := bp.workbenchLevelRequired }
  | none =>
    { item with
      ingredients := []
      craftTime := JsVal.null
      amountToCreate := JsVal.null
      workbenchLevelRequired := JsVal.null }

/-- matchItemsWithBlueprints: every item is processed and pushed in order. -/
def matchItemsWithBlueprints (items bps : List UItem) : List UItem :=
  items.map (matchOne items bps)

/-- Decimal digits of a natural number (fuel-indexed, fuel of n + 1 always
suffices). -/
def natDigits : Nat → Nat → List Char
  | 0, _ => []
  | f + 1, n =>
    if n < 10 then [Char.ofNat (48 + n)]
    else natDigits f (n / 10) ++ [Char.ofNat (48 + n % 10)]

/-- Decimal string of a natural number. -/
def natDec (n : Nat) : String := String.mk (natDigits (n + 1) n)

/-- Decimal string of an integer, as JavaScript renders integral numbers. -/
def intDec (z : Int) : String :=
  if z < 0 then "-" ++ natDec z.natAbs else natDec z.natAbs

/-- Smallest exponent k with d dividing 10 to the k, when one exists below
the search bound. -/
def decExpSearch (d : Nat) : Option Nat :=
  (List.range (d + 1)).find? (fun k => 10 ^ k % d == 0)

/-- Left-pad a string with zeros to the given length. -/
def padZeros (k : Nat) (s : String) : String :=
  String.mk (List.replicate (k - s.length) '0') ++ s

/-- Rendering of a rational as JavaScript renders the numbers flowing
through this pipeline: integers in decimal, terminating decimals with the
shortest fraction; other rationals (unreachable here) fall back to a
fraction form. -/
def ratStr (q : Rat) : String :=
  if q.den = 1 then intDec q.num
  else
    match decExpSearch q.den with
    | some k =>
      let scaled := q.num.natAbs * (10 ^ k / q.den)
      (if q.num < 0 then "-" else "") ++ natDec (scaled / 10 ^ k) ++ "." ++
        padZeros k (natDec (scaled % 10 ^ k))
    | none => intDec q.num ++ "/" ++ natDec q.den

/-- String conversion of a JavaScript value, as the default Array sort
comparator applies it. -/
def jsValStr : JsVal → String
  | JsVal.undef => "undefined"
  | JsVal.null => "null"
  | JsVal.num JsNum.nan => "NaN"
  | JsVal.num (JsNum.num q) => ratStr q
  | JsVal.str s => s
  | JsVal.bool b => if b then "true" else "false"

/-- Lexicographic code-unit comparison of two character lists, the order the
default Array sort comparator induces on the converted strings. -/
def charListLeb : List Char → List Char → Bool
  | [], _ => true
  | _ :: _, [] => false
  | a :: as, b :: bs =>
    if a.toNat < b.toNat then true
    else if b.toNat < a.toNat then false
    else charListLeb as bs

/-- The order of the default Array sort comparator: code-unit order of the
string conversions. -/
def jsLe (a b : JsVal) : Prop :=
  charListLeb (jsValStr a).toList (jsValStr b).toList = true

instance : DecidableRel jsLe := fun a b =>
  inferInstanceAs (Decidable (_ = true))

/-- First-occurrence deduplication (fuel-indexed), as iterating a Set built
from an array produces. -/
def firstDedupAux : Nat → List JsVal → List JsVal
  | 0, _ => []
  | _, [] => []
  | fuel + 1, a :: l => a :: firstDedupAux fuel (l.filter (fun b => !(b == a)))

/-- The element list of a Set built from an array: first occurrences in
order (SameValueZero equality). -/
def firstDedup (l : List JsVal) : List JsVal := firstDedupAux l.length l

/-- The summary object written by saveToFile. -/
structure ExtractionSummary where
  totalItems : Nat
  itemsWithBlueprints : Nat
  itemsWithoutBlueprints : Nat
  categories : List JsVal
deriving DecidableEq

/-- The summary derivation of saveToFile: counts by ingredient presence, and
the distinct category values sorted by the default comparator. -/
def summaryOf (items : List UItem) : ExtractionSummary :=
  { totalItems := items.length
    itemsWithBlueprints := (items.filter (fun it => it.ingredients.length > 0)).length
    itemsWithoutBlueprints := (items.filter (fun it => it.ingredients.length = 0)).length
    categories := List.insertionSort jsLe (firstDedup (items.map (fun it => it.category))) }

/-! Helper lemmas about the resolver and merge stages. -/

/-- A concrete description-derived item record (as parsePrefabFile emits
them), used as test input. -/
def sampleItem : UItem :=
  { type := some "ItemDefinition"
    pathId := jnum 55
    shortname := "wood"
    displayName := "Wood"
    itemid := jnum 7
    category := jnum 3
    categoryName := JsVal.str "Resources"
    stackable := jnum 1000
    volume := jnum 10
    ingredients := []
    craftTime := JsVal.null
    amountToCreate := JsVal.null
    workbenchLevelRequired := JsVal.null
    sourceFile := some "wood.item.prefab"
    description := none
    categoryId := none
    maxDraggable := none
    itemType := none
    amountType := none
    quickDespawn := none
    rarity := none
    condition := none
    parent := none
    isWearable := none
    isHoldable := none
    isUsable := none
    hasSkins := none
    workbenchLevel := none
    source := none }

/-- A concrete parsed JSON source file with the three required keys present
and no volume key. -/
def c1data : JsonItemData :=
  { itemid := some 7
    shortname := some "wood"
    Name := some "Wood"
    Description := none
    Category := none
    stackable := none
    volume := none
    maxDraggable := none
    ItemType := none
    AmountType := none
    quickDespawn := none
    rarity := none
    condition := none
    Parent := none
    isWearable := none
    isHoldable := none
    isUsable := none
    HasSkins := none }

/-- The record the loader builds from c1data: every absent key defaulted. -/
def c1json : JsonItem :=
  { itemid := 7
    shortname := "wood"
    displayName := "Wood"
    description := ""
    category := "Unknown"
    categoryId := JsVal.undef
    stackable := 1
    volume := 0
    maxDraggable := 0
    itemType := "Generic"
    amountType := "Count"
    quickDespawn := false
    rarity := "None"
    condition := JsVal.null
    parent := 0
    isWearable := false
    isHoldable := false
    isUsable := false
    hasSkins := false
    ingredients := []
    craftTime := 0
    amountToCreate := 1
    workbenchLevel := 0
    source := "json" }

/-- Two parsed JSON source files sharing itemid 5 with different
shortnames. -/
def c2data1 : JsonItemData :=
  { c1data with itemid := some 5, shortname := some "stones", Name := some "Stones" }

def c2data2 : JsonItemData :=
  { c1data with itemid := some 5, shortname := some "metal.ore", Name := some "Metal Ore" }

def c2json1 : JsonItem :=
  { c1json with itemid := 5, shortname := "stones", displayName := "Stones" }

def c2json2 : JsonItem :=
  { c1json with itemid := 5, shortname := "metal.ore", displayName := "Metal Ore" }

/-- A concrete blueprint record for the shortname wood, with one ingredient
whose target reference 99 matches no item. -/
def sampleBp : UItem :=
  { type := some "ItemBlueprint"
    pathId := JsVal.null
    shortname := "wood"
    displayName := "Wood"
    itemid := JsVal.null
    category := JsVal.null
    categoryName := JsVal.undef
    stackable := JsVal.null
    volume := JsVal.null
    ingredients := [{ amount := JsNum.num 2
                      itemDef := { m_PathID := JsNum.num 99
                                   shortname := none
                                   displayName := none } }]
    craftTime := jnum 30
    amountToCreate := jnum 1
    workbenchLevelRequired := JsVal.null
    sourceFile := some "wood.item.prefab"
    description := none
    categoryId := none
    maxDraggable := none
    itemType := none
    amountType := none
    quickDespawn := none
    rarity := none
    condition := none
    parent := none
    isWearable := none
    isHoldable := none
    isUsable := none
    hasSkins := none
    workbenchLevel := none
    source := none }

/-- A parsed JSON source file with all three required keys present but a
zero identifier. -/
def c10data : JsonItemData :=
  { c1data with itemid := some 0, shortname := some "stones", Name := some "Stones" }

/-- A description file with no itemid field but with all recipe markers. -/
def c7content : List Char :=
  ("shortname: workbench\ningredients:\n- itemDef: \x7bfileID: 55, guid: ab\x7d\n  amount: 2\ntime: 30\namountToCreate: 1\n").toList

def c7fp : List Char := "workbench.prefab".toList

/-- A description file whose itemid field holds non-numeric text, with the
other required item fields present. -/
def c3content : List Char :=
  "itemid: abc\nshortname: wood\ndisplayName:\n  token: Wood\n".toList

def c3path : List Char := "wood.item.prefab".toList

def c3goodContent1 : List Char :=
  "itemid: 1\nshortname: stones\ndisplayName:\n  token: Stones\n".toList

def c3goodContent2 : List Char :=
  "itemid: 2\nshortname: cloth\ndisplayName:\n  token: Cloth\n".toList

def c3goodPath1 : List Char := "stones.item.prefab".toList

def c3goodPath2 : List Char := "cloth.item.prefab".toList

/-- Two final items with numeric category codes 2 and 10. -/
def c8item1 : UItem := { sampleItem with category := jnum 2, itemid := jnum 1 }

def c8item2 : UItem := { sampleItem with category := jnum 10, itemid := jnum 2 }

theorem charListLeb_total : ∀ x y : List Char,
    charListLeb x y = true ∨ charListLeb y x = true := by
  intro x
  induction x with
  | nil => intro y; exact Or.inl rfl
  | cons a as ih =>
    intro y
    cases y with
    | nil => exact Or.inr rfl
    | cons b bs =>
      by_cases h1 : a.toNat < b.toNat
      · left
        simp [charListLeb, h1]
      · by_cases h2 : b.toNat < a.toNat
        · right
          simp [charListLeb, h2]
        · rcases ih bs with h | h
          · left
            simp [charListLeb, h1, h2, h]
          · right
            simp [charListLeb, h1, h2, h]

theorem charListLeb_trans : ∀ x y z : List Char,
    charListLeb x y = true → charListLeb y z = true → charListLeb x z = true := by
  intro x
  induction x with
  | nil => intro y z _ _; rfl
  | cons a as ih =>
    intro y z hxy hyz
    cases y with
    | nil => simp [charListLeb] at hxy
    | cons b bs =>
      cases z with
      | nil => simp [charListLeb] at hyz
      | cons c cs =>
        simp only [charListLeb] at hxy hyz ⊢
        by_cases h1 : a.toNat < b.toNat <;> by_cases h2 : b.toNat < c.toNat <;>
          by_cases h3 : a.toNat < c.toNat <;>
            simp only [h1, h2, h3, if_true, if_false, ite_true, ite_false] at hxy hyz ⊢ <;>
              first
                | rfl
                | omega
                | (by_cases h4 : b.toNat < a.toNat <;>
                     by_cases h5 : c.toNat < b.toNat <;>
                       by_cases h6 : c.toNat < a.toNat <;>
                         simp only [h4, h5, h6, if_true, if_false, ite_true, ite_false] at hxy hyz ⊢ <;>
                           first
                             | rfl
                             | omega
                             | exact ih bs cs hxy hyz
                             | simp at hxy
                             | simp at hyz)

theorem mergeOne_pathId (B : List JsonItem) (it : UItem) :
    (mergeOne B it).pathId = it.pathId := by
  unfold mergeOne
  split <;> rfl

theorem matchOne_shortname (items bps : List UItem) (it : UItem) :
    (matchOne items bps it).shortname = it.shortname := by
  unfold matchOne
  split <;> rfl

theorem matchOne_pathId (items bps : List UItem) (it : UItem) :
    (matchOne items bps it).pathId = it.pathId := by
  unfold matchOne
  split <;> rfl

theorem matchOne_displayName (items bps : List UItem) (it : UItem) :
    (matchOne items bps it).displayName = it.displayName := by
  unfold matchOne
  split <;> rfl

theorem pathLookup_map (items : List UItem) (f : UItem → UItem)
    (hf : ∀ a, (f a).pathId = a.pathId) (k : JsNum) :
    pathLookup (items.map f) k = (pathLookup items k).map f := by
  unfold pathLookup
  have hp : ((fun it : UItem => pathTruthy it.pathId) ∘ f)
      = (fun it : UItem => pathTruthy it.pathId) := by
    funext a
    simp [Function.comp, hf a]
  have hq : ((fun it : UItem => it.pathId == JsVal.num k) ∘ f)
      = (fun it : UItem => it.pathId == JsVal.num k) := by
    funext a
    simp [Function.comp, hf a]
  rw [List.filter_map, hp, ← List.map_reverse, List.find?_map, hq]

theorem pathLookup_eq_none (items : List UItem) (k : JsNum)
    (h : ∀ u ∈ items, u.pathId ≠ JsVal.num k) : pathLookup items k = none := by
  unfold pathLookup
  rw [List.find?_eq_none]
  intro u hu
  have hmem : u ∈ items := (List.mem_filter.mp (List.mem_reverse.mp hu)).1
  simp only [beq_iff_eq]
  exact h u hmem

theorem resolveIng_of_no_match (items : List UItem) (ing : Ingredient)
    (h : ∀ u ∈ items, u.pathId ≠ JsVal.num ing.itemDef.m_PathID) :
    resolveIng items ing = ing := by
  unfold resolveIng
  rw [pathLookup_eq_none items _ h]

theorem resolveIng_map (items : List UItem) (f : UItem → UItem)
    (hpath : ∀ a, (f a).pathId = a.pathId)
    (hsn : ∀ a, (f a).shortname = a.shortname)
    (hdn : ∀ a, (f a).displayName = a.displayName) (ing : Ingredient) :
    resolveIng (items.map f) ing = resolveIng items ing := by
  unfold resolveIng
  rw [pathLookup_map items f hpath]
  cases h : pathLookup items ing.itemDef.m_PathID with
  | none => rfl
  | some it => simp [hsn it, hdn it]

theorem matchOne_matchOne (items bps : List UItem) (it : UItem) :
    matchOne (items.map (matchOne items bps)) bps (matchOne items bps it)
      = matchOne items bps it := by
  have hres : resolveIng (items.map (matchOne items bps)) = resolveIng items :=
    funext (resolveIng_map items (matchOne items bps)
      (matchOne_pathId items bps) (matchOne_shortname items bps)
      (matchOne_displayName items bps))
  cases h : blueprintLookup bps it.shortname with
  | some bp =>
    have h2 : blueprintLookup bps (matchOne items bps it).shortname = some bp := by
      rw [matchOne_shortname, h]
    simp only [matchOne, h, h2, hres]
  | none =>
    have h2 : blueprintLookup bps (matchOne items bps it).shortname = none := by
      rw [matchOne_shortname, h]
    simp only [matchOne, h, h2]

/-- C5: recipe resolution is idempotent: applying the resolver to its own
output with the same recipe list returns that output unchanged, so every
item keeps the same ingredients, craft time, output quantity and workbench
tier as after the first application. -/
theorem c5_resolver_idempotent (items bps : List UItem) :
    matchItemsWithBlueprints (matchItemsWithBlueprints items bps) bps
      = matchItemsWithBlueprints items bps := by
  unfold matchItemsWithBlueprints
  rw [List.map_map]
  have h : (matchOne (items.map (matchOne items bps)) bps) ∘ (matchOne items bps)
      = matchOne items bps := funext (matchOne_matchOne items bps)
  rw [h]

/-- C6: an item whose shortname matches no blueprint gets an empty
ingredient list and null craft fields from the resolver, overwriting any
stale crafting values the record carried. -/
theorem c6_no_recipe_clears_crafting (items bps : List UItem) (i : Nat)
    (hi : i < items.length)
    (h : ∀ bp ∈ bps, bp.shortname ≠ (items.get ⟨i, hi⟩).shortname) :
    ∃ h2 : i < (matchItemsWithBlueprints items bps).length,
      ((matchItemsWithBlueprints items bps).get ⟨i, h2⟩).ingredients = [] ∧
      ((matchItemsWithBlueprints items bps).get ⟨i, h2⟩).craftTime = JsVal.null ∧
      ((matchItemsWithBlueprints items bps).get ⟨i, h2⟩).amountToCreate = JsVal.null ∧
      ((matchItemsWithBlueprints items bps).get ⟨i, h2⟩).workbenchLevelRequired = JsVal.null := by
  have hbl : blueprintLookup bps (items.get ⟨i, hi⟩).shortname = none := by
    unfold blueprintLookup
    rw [List.find?_eq_none]
    intro bp hbp
    simp only [beq_iff_eq]
    exact h bp (List.mem_reverse.mp hbp)
  have h2 : i < (matchItemsWithBlueprints items bps).length := by
    simpa [matchItemsWithBlueprints] using hi
  have hg : (matchItemsWithBlueprints items bps).get ⟨i, h2⟩
      = matchOne items bps (items.get ⟨i, hi⟩) := by
    simp [matchItemsWithBlueprints, List.get_eq_getElem]
  simp only [List.get_eq_getElem] at hbl
  refine ⟨h2, ?_, ?_, ?_, ?_⟩ <;> rw [hg] <;> simp [matchOne, hbl]

/-- C4: an ingredient whose targetRef matches no item objectRef is kept at
its position in the resolved ingredient sequence, unchanged (same quantity
and targetRef, resolved names still absent), and the sequence keeps its
length. -/
theorem c4_unresolved_ingredient_kept (items bps : List UItem) (it bp : UItem)
    (i : Nat) (hi : i < bp.ingredients.length)
    (hbl : blueprintLookup bps it.shortname = some bp)
    (hsn : (bp.ingredients.get ⟨i, hi⟩).itemDef.shortname = none)
    (hdn : (bp.ingredients.get ⟨i, hi⟩).itemDef.displayName = none)
    (h : ∀ u ∈ items, u.pathId ≠ JsVal.num (bp.ingredients.get ⟨i, hi⟩).itemDef.m_PathID) :
    ∃ h2 : i < (matchOne items bps it).ingredients.length,
      (matchOne items bps it).ingredients.get ⟨i, h2⟩ = bp.ingredients.get ⟨i, hi⟩ ∧
      (matchOne items bps it).ingredients.length = bp.ingredients.length := by
  have hing : (matchOne items bps it).ingredients = bp.ingredients.map (resolveIng items) := by
    simp [matchOne, hbl]
  have h2 : i < (matchOne items bps it).ingredients.length := by
    rw [hing, List.length_map]
    exact hi
  refine ⟨h2, ?_, by rw [hing, List.length_map]⟩
  have : (matchOne items bps it).ingredients.get ⟨i, h2⟩
      = resolveIng items (bp.ingredients.get ⟨i, hi⟩) := by
    simp only [List.get_eq_getElem]
    rw [List.getElem_of_eq hing]
    simp [List.getElem_map]
  rw [this]
  exact resolveIng_of_no_match items _ h

/-- C9: spreading a JSON record over a prefab record preserves the internal
object identifier, since the JSON record literal carries no pathId key; a
JSON record appended as a new entry has no pathId at all, and the first
block of the merged list keeps the prefab pathIds positionally. -/
theorem c9_merge_preserves_pathId :
    (∀ (p : UItem) (j : JsonItem), (spreadMerge p j).pathId = p.pathId) ∧
    (∀ j : JsonItem, (jsonToU j).pathId = JsVal.undef) ∧
    (∀ (A : List UItem) (B : List JsonItem),
      ((mergeItems A B).map (fun it => it.pathId)).take A.length
        = A.map (fun it => it.pathId)) := by
  refine ⟨fun p j => rfl, fun j => rfl, fun A B => ?_⟩
  unfold mergeItems
  rw [List.map_append, List.map_map]
  have h1 : (fun it => it.pathId) ∘ mergeOne B = fun it : UItem => it.pathId :=
    funext (mergeOne_pathId B)
  rw [h1]
  have h2 : (A.map (fun it => it.pathId)).length = A.length := List.length_map _ _
  rw [← h2, List.take_append_of_le_length (le_refl _), List.take_length]

/-- C10: a JSON item file whose identifier is zero or whose shortname or
display name is the empty string yields no record even with all three
required keys present, and the loader records no error for it. -/
theorem c10_json_falsy_skipped (d : JsonItemData)
    (h1 : d.itemid.isSome) (h2 : d.shortname.isSome) (h3 : d.Name.isSome)
    (h : d.itemid = some 0 ∨ d.shortname = some "" ∨ d.Name = some "") :
    jsonItemOfData d = none ∧ extractJsonItemsRun [Except.ok d] = ([], []) := by
  have hj : jsonItemOfData d = none := by
    unfold jsonItemOfData
    rcases h with h | h | h <;> simp [truthyRat, truthyStr, h]
  exact ⟨hj, by simp [extractJsonItemsRun, hj]⟩

theorem mergeOne_itemid (B : List JsonItem) (it : UItem) :
    (mergeOne B it).itemid = it.itemid := by
  unfold mergeOne
  cases h : mapGetLast B it.itemid with
  | none => rfl
  | some j =>
    have hp := List.find?_some h
    have he : jnum j.itemid = it.itemid := by simpa [beq_iff_eq] using hp
    simpa [spreadMerge] using he

theorem mergeItems_ids (A : List UItem) (B : List JsonItem) :
    (mergeItems A B).map (fun it => it.itemid)
      = A.map (fun it => it.itemid)
        ++ (B.map (fun j => jnum j.itemid)).filter
             (fun k => !((A.map (fun it => it.itemid)).contains k)) := by
  have hup : ((fun it : UItem => it.itemid) ∘ mergeOne B) = fun it : UItem => it.itemid :=
    funext (mergeOne_itemid B)
  have hjt : ((fun it : UItem => it.itemid) ∘ jsonToU) = fun j : JsonItem => jnum j.itemid :=
    funext (fun j => rfl)
  simp only [mergeItems, List.map_append, List.map_map, hup, hjt]
  have hcomp : (fun j : JsonItem => !((A.map (fun it => it.itemid)).contains (jnum j.itemid)))
      = ((fun k => !((A.map (fun it => it.itemid)).contains k))
          ∘ (fun j : JsonItem => jnum j.itemid)) := rfl
  rw [hcomp, ← List.filter_map]

/-- C1 counterexample: a prefab item with volume 10 merged with the record
of a JSON source file that has no volume key does not keep volume 10: the
loader defaults the record volume to 0 and the spread overrides with it. -/
theorem c1_counterexample :
    jsonItemOfData c1data = some c1json ∧
    (mergeItems [sampleItem] [c1json]).map (fun it => it.volume) = [jnum 0] ∧
    sampleItem.volume = jnum 10 ∧ jnum 0 ≠ jnum 10 := by
  decide

/-- C1 amended: the merged record takes every field of the JSON record
shape from the JSON record, whose values already carry the loader defaults
for keys absent from the source file (volume defaults to 0, so a prefab
volume is overridden even when the JSON source has no volume key, and a
JSON volume of 5 yields 5); only fields outside the JSON record shape keep
the description-derived value. -/
theorem c1_merge_field_precedence_amended (p : UItem) (d : JsonItemData) (j : JsonItem)
    (hj : jsonItemOfData d = some j) :
    (spreadMerge p j).volume = jnum j.volume ∧
    (d.volume = none → (spreadMerge p j).volume = jnum 0) ∧
    (∀ q : Rat, d.volume = some q → (spreadMerge p j).volume = jnum q) ∧
    (spreadMerge p j).categoryName = p.categoryName ∧
    (spreadMerge p j).type = p.type ∧
    (spreadMerge p j).sourceFile = p.sourceFile ∧
    (spreadMerge p j).workbenchLevelRequired = p.workbenchLevelRequired := by
  have hv : j.volume = d.volume.getD 0 := by
    unfold jsonItemOfData at hj
    split at hj
    · injection hj with h
      rw [← h]
    · exact absurd hj (by simp)
  refine ⟨rfl, ?_, ?_, rfl, rfl, rfl, rfl⟩
  · intro h0
    show jnum j.volume = jnum 0
    rw [hv, h0]
    rfl
  · intro q hq
    show jnum j.volume = jnum q
    rw [hv, hq]
    rfl

/-- C1 witness: the amended precedence theorem applied at the concrete prefab item and JSON file with no volume key. -/
theorem c1_witness :
    (spreadMerge sampleItem c1json).volume = jnum 0 :=
  (c1_merge_field_precedence_amended sampleItem c1data c1json (by decide)).2.1 rfl

/-- C2 counterexample: two JSON source files with the same itemid and no
prefab counterpart both survive the merge, so an itemid appears twice in
the output and the claimed uniqueness for arbitrary source lists fails. -/
theorem c2_counterexample :
    jsonItemOfData c2data1 = some c2json1 ∧
    jsonItemOfData c2data2 = some c2json2 ∧
    (mergeItems [] [c2json1, c2json2]).map (fun it => it.itemid) = [jnum 5, jnum 5] ∧
    ¬ ((mergeItems [] [c2json1, c2json2]).map (fun it => it.itemid)).Nodup := by
  decide

/-- C2 amended: when each source list is itself free of duplicate itemids,
the merge is total and deduplicating: every itemid of either source appears
in the output, none appears twice, and the output length is the cardinality
of the union of the two itemid sets. -/
theorem c2_merge_total_dedup_amended (A : List UItem) (B : List JsonItem)
    (hA : (A.map (fun it => it.itemid)).Nodup)
    (hB : (B.map (fun j => jnum j.itemid)).Nodup) :
    ((mergeItems A B).map (fun it => it.itemid)).Nodup ∧
    (∀ k, k ∈ (mergeItems A B).map (fun it => it.itemid) ↔
       k ∈ A.map (fun it => it.itemid) ∨ k ∈ B.map (fun j => jnum j.itemid)) ∧
    ((mergeItems A B).map (fun it => it.itemid)).length
      = ((A.map (fun it => it.itemid)).toFinset ∪ (B.map (fun j => jnum j.itemid)).toFinset).card := by
  have hshape := mergeItems_ids A B
  have hnd : ((mergeItems A B).map (fun it => it.itemid)).Nodup := by
    rw [hshape, List.nodup_append]
    refine ⟨hA, hB.filter _, ?_⟩
    intro k hk1 hk2
    have h2 := (List.mem_filter.mp hk2).2
    have hc : (A.map (fun it => it.itemid)).contains k = true := List.elem_iff.mpr hk1
    rw [hc] at h2
    simp at h2
  have hm : ∀ k, k ∈ (mergeItems A B).map (fun it => it.itemid) ↔
      k ∈ A.map (fun it => it.itemid) ∨ k ∈ B.map (fun j => jnum j.itemid) := by
    intro k
    rw [hshape, List.mem_append]
    constructor
    · rintro (h | h)
      · exact Or.inl h
      · exact Or.inr (List.mem_of_mem_filter h)
    · rintro (h | h)
      · exact Or.inl h
      · by_cases ha : k ∈ A.map (fun it => it.itemid)
        · exact Or.inl ha
        · right
          have hc : (A.map (fun it => it.itemid)).contains k = false := by
            cases hc : (A.map (fun it => it.itemid)).contains k with
            | true => exact absurd (List.elem_iff.mp hc) ha
            | false => rfl
          rw [List.mem_filter]
          exact ⟨h, by rw [hc]; rfl⟩
  refine ⟨hnd, hm, ?_⟩
  have hfin : ((mergeItems A B).map (fun it => it.itemid)).toFinset
      = (A.map (fun it => it.itemid)).toFinset ∪ (B.map (fun j => jnum j.itemid)).toFinset := by
    ext k
    simp [List.mem_toFinset, hm k]
  rw [← List.toFinset_card_of_nodup hnd, hfin]

/-- C2 witness: the amended merge theorem applied at one prefab item and one JSON record with distinct itemids. -/
theorem c2_witness :
    ((mergeItems [sampleItem] [c1json]).map (fun it => it.itemid)).Nodup :=
  (c2_merge_total_dedup_amended [sampleItem] [c1json] (by decide) (by decide)).1

/-- C4 witness: the retention theorem applied at a blueprint whose single ingredient references the unmatched id 99. -/
theorem c4_witness :
    ∃ h2 : 0 < (matchOne [sampleItem] [sampleBp] sampleItem).ingredients.length,
      (matchOne [sampleItem] [sampleBp] sampleItem).ingredients.get ⟨0, h2⟩
          = sampleBp.ingredients.get ⟨0, by decide⟩ ∧
        (matchOne [sampleItem] [sampleBp] sampleItem).ingredients.length
          = sampleBp.ingredients.length :=
  c4_unresolved_ingredient_kept [sampleItem] [sampleBp] sampleItem sampleBp 0
    (by decide) (by decide) (by decide) (by decide) (by decide)

/-- C6 witness: the clearing theorem applied at a JSON-derived item with no matching blueprint shortname. -/
theorem c6_witness :
    ∃ h2 : 0 < (matchItemsWithBlueprints (mergeItems [] [c2json1]) [sampleBp]).length,
      ((matchItemsWithBlueprints (mergeItems [] [c2json1]) [sampleBp]).get ⟨0, h2⟩).ingredients = [] ∧
        ((matchItemsWithBlueprints (mergeItems [] [c2json1]) [sampleBp]).get ⟨0, h2⟩).craftTime = JsVal.null ∧
        ((matchItemsWithBlueprints (mergeItems [] [c2json1]) [sampleBp]).get ⟨0, h2⟩).amountToCreate = JsVal.null ∧
        ((matchItemsWithBlueprints (mergeItems [] [c2json1]) [sampleBp]).get ⟨0, h2⟩).workbenchLevelRequired = JsVal.null :=
  c6_no_recipe_clears_crafting (mergeItems [] [c2json1]) [sampleBp] 0 (by decide) (by decide)

/-- C10 witness: the skip theorem applied at a JSON file with identifier zero and the other keys present. -/
theorem c10_witness :
    jsonItemOfData c10data = none ∧ extractJsonItemsRun [Except.ok c10data] = ([], []) :=
  c10_json_falsy_skipped c10data (by decide) (by decide) (by decide) (Or.inl (by decide))

theorem mkBpRecord_type (content fp tv av : List Char) :
    (mkBpRecord content fp tv av).type = some "ItemBlueprint" := rfl

theorem mkItemRecord_type (content fp av bv cv : List Char) :
    (mkItemRecord content fp av bv cv).type = some "ItemDefinition" := rfl

theorem itemPartOf_eq_nil (content fp : List Char)
    (h : scanKey1 itemidKey content = none ∨ scanKey1 shortnameKey content = none ∨
         scanDisplayName content = none) :
    itemPartOf content fp = [] := by
  rcases h with h | h | h
  · simp [itemPartOf, h]
  · cases hx : scanKey1 itemidKey content <;> simp [itemPartOf, h, hx]
  · cases hx : scanKey1 itemidKey content <;>
      cases hy : scanKey1 shortnameKey content <;> simp [itemPartOf, h, hx, hy]

theorem bpPartOf_filter_itemdef (content fp : List Char) :
    (bpPartOf content fp).filter (fun r => r.type == some "ItemDefinition") = [] := by
  unfold bpPartOf
  cases h1 : hasSubstr ingredientsKey content <;>
    cases h2 : scanKey1 timeKey content <;>
      cases h3 : scanKey1 amountToCreateKey content <;>
        simp [List.filter_cons, mkBpRecord_type]

/-- C7: a description file missing any of the three required item fields
yields no item-definition record, and still yields a recipe record whenever
the ingredients marker, the time field and the amountToCreate field are all
present. -/
theorem c7_missing_item_fields (content fp : List Char)
    (h : scanKey1 itemidKey content = none ∨ scanKey1 shortnameKey content = none ∨
         scanDisplayName content = none) :
    (parsePrefabRecords content fp).filter (fun r => r.type == some "ItemDefinition") = [] ∧
    (hasSubstr ingredientsKey content = true → (scanKey1 timeKey content).isSome →
      (scanKey1 amountToCreateKey content).isSome →
      (parsePrefabRecords content fp).filter (fun r => r.type == some "ItemBlueprint") ≠ []) := by
  have hitem := itemPartOf_eq_nil content fp h
  constructor
  · cases hbp : bpPartOf content fp with
    | nil => simp [parsePrefabRecords, parsePrefabFile, hitem, hbp]
    | cons r t =>
      have hf := bpPartOf_filter_itemdef content fp
      rw [hbp] at hf
      simp [parsePrefabRecords, parsePrefabFile, hitem, hbp, hf]
  · intro hm1 hm2 hm3
    obtain ⟨tv, h2⟩ := Option.isSome_iff_exists.mp hm2
    obtain ⟨av, h3⟩ := Option.isSome_iff_exists.mp hm3
    have hbp : bpPartOf content fp = [mkBpRecord content fp tv av] := by
      simp [bpPartOf, hm1, h2, h3]
    simp [parsePrefabRecords, parsePrefabFile, hitem, hbp, List.filter_cons, mkBpRecord_type]

/-- C7 witness: the theorem applied at a file with no itemid field but full recipe markers. -/
theorem c7_witness :
    (parsePrefabRecords c7content c7fp).filter (fun r => r.type == some "ItemBlueprint") ≠ [] :=
  (c7_missing_item_fields c7content c7fp (Or.inl (by decide))).2 (by decide) (by decide) (by decide)

theorem takeWhile_isDigit_nil (l : List Char) (h : ∀ c ∈ l, c.isDigit = false) :
    l.takeWhile Char.isDigit = [] := by
  cases l with
  | nil => rfl
  | cons c cs => simp [List.takeWhile_cons, h c (List.mem_cons_self c cs)]

theorem parseIntDec_nan (sgn : Int) (t : List Char) (h : ∀ c ∈ t, c.isDigit = false) :
    parseIntDec sgn t = JsNum.nan := by
  unfold parseIntDec
  rw [takeWhile_isDigit_nil t h]
  rfl

theorem parseIntCore_nan (sgn : Int) (t : List Char) (h : ∀ c ∈ t, c.isDigit = false) :
    parseIntCore sgn t = JsNum.nan := by
  unfold parseIntCore
  split
  · exact absurd (h '0' (by simp)) (by decide)
  · exact absurd (h '0' (by simp)) (by decide)
  · exact parseIntDec_nan sgn t h

theorem parseIntJs_nan (s : List Char) (h : ∀ c ∈ s, c.isDigit = false) :
    parseIntJs s = JsNum.nan := by
  have hsub : ∀ c ∈ s.dropWhile isWs, c.isDigit = false := fun c hc =>
    h c ((List.dropWhile_sublist isWs).subset hc)
  unfold parseIntJs
  split
  · next r heq =>
      refine parseIntCore_nan _ r (fun c hc => ?_)
      have : c ∈ s.dropWhile isWs := by
        rw [heq]
        exact List.mem_cons_of_mem _ hc
      exact hsub c this
  · next r heq =>
      refine parseIntCore_nan _ r (fun c hc => ?_)
      have : c ∈ s.dropWhile isWs := by
        rw [heq]
        exact List.mem_cons_of_mem _ hc
      exact hsub c this
  · exact parseIntCore_nan _ _ hsub

theorem trimJs_subset (s : List Char) : ∀ c ∈ trimJs s, c ∈ s := by
  intro c hc
  unfold trimJs at hc
  rw [List.mem_reverse] at hc
  have h1 := (List.dropWhile_sublist isWs).subset hc
  rw [List.mem_reverse] at h1
  exact (List.dropWhile_sublist isWs).subset h1

/-- C3 counterexample: the file with itemid text abc still yields an
ItemDefinition record, carrying NaN as its itemid, instead of yielding no
record. -/
theorem c3_counterexample :
    (parsePrefabRecords c3content c3path).map (fun r => (r.type, r.itemid))
      = [(some "ItemDefinition", JsVal.num JsNum.nan)] := by
  decide

/-- C3 amended: a malformed numeric itemid does not crash the extractor and
extraction continues with the remaining files, but the record for that file
is still emitted, with NaN in the itemid field, rather than being treated
as absent: any file whose itemid capture is digit-free (with the other two
required fields present) produces an ItemDefinition record with itemid NaN,
and in a three-file run the malformed middle file and both neighbours all
emit records. -/
theorem c3_malformed_numeric_amended :
    (∀ content fp av bv cv : List Char,
      scanKey1 itemidKey content = some av →
      scanKey1 shortnameKey content = some bv →
      scanDisplayName content = some cv →
      (∀ c ∈ av, c.isDigit = false) →
      ∃ r ∈ parsePrefabRecords content fp,
        r.type = some "ItemDefinition" ∧ r.itemid = JsVal.num JsNum.nan) ∧
    (extractPrefabRecords
        [(c3goodPath1, c3goodContent1), (c3path, c3content), (c3goodPath2, c3goodContent2)]).1.map
          (fun r => r.itemid) = [jnum 1, JsVal.num JsNum.nan, jnum 2] := by
  constructor
  · intro content fp av bv cv ha hb hc hnd
    have hitem : itemPartOf content fp = [mkItemRecord content fp av bv cv] := by
      unfold itemPartOf
      rw [ha, hb, hc]
    have hnan : parseIntJs (trimJs av) = JsNum.nan :=
      parseIntJs_nan _ (fun c hc2 => hnd c (trimJs_subset av c hc2))
    refine ⟨mkItemRecord content fp av bv cv, ?_, rfl, ?_⟩
    · unfold parsePrefabRecords parsePrefabFile
      rw [hitem]
      simp
    · show JsVal.num (parseIntJs (trimJs av)) = JsVal.num JsNum.nan
      rw [hnan]
  · decide

/-- C3 witness: the amended theorem applied at the concrete file whose itemid field holds the text abc. -/
theorem c3_witness :
    ∃ r ∈ parsePrefabRecords c3content c3path,
      r.type = some "ItemDefinition" ∧ r.itemid = JsVal.num JsNum.nan :=
  c3_malformed_numeric_amended.1 c3content c3path "abc".toList "wood".toList "Wood".toList
    (by decide) (by decide) (by decide) (by decide)

theorem filter_length_partition (items : List UItem) :
    (items.filter (fun it => it.ingredients.length > 0)).length
      + (items.filter (fun it => it.ingredients.length = 0)).length = items.length := by
  induction items with
  | nil => rfl
  | cons a l ih =>
    simp only [List.filter_cons, List.length_cons]
    by_cases h : a.ingredients.length = 0
    · rw [if_neg (by simp [h]), if_pos (by simp [h])]
      simp only [List.length_cons]
      omega
    · rw [if_pos (by simp [Nat.pos_of_ne_zero h]), if_neg (by simp [h])]
      simp only [List.length_cons]
      omega

theorem firstDedupAux_mem (fuel : Nat) : ∀ (l : List JsVal), l.length ≤ fuel →
    ∀ a, a ∈ firstDedupAux fuel l ↔ a ∈ l := by
  induction fuel with
  | zero =>
    intro l hl a
    have : l = [] := List.eq_nil_of_length_eq_zero (Nat.le_zero.mp hl)
    subst this
    simp [firstDedupAux]
  | succ f ih =>
    intro l hl a
    cases l with
    | nil => simp [firstDedupAux]
    | cons b t =>
      have hlen : (t.filter (fun x => !(x == b))).length ≤ f := by
        have h1 := List.length_filter_le (fun x => !(x == b)) t
        simp only [List.length_cons] at hl
        omega
      simp only [firstDedupAux, List.mem_cons]
      rw [ih _ hlen a]
      constructor
      · rintro (h | h)
        · exact Or.inl h
        · exact Or.inr (List.mem_of_mem_filter h)
      · rintro (h | h)
        · exact Or.inl h
        · by_cases he : a = b
          · exact Or.inl he
          · refine Or.inr (List.mem_filter.mpr ⟨h, ?_⟩)
            simp [he]

theorem firstDedupAux_nodup (fuel : Nat) : ∀ (l : List JsVal), l.length ≤ fuel →
    (firstDedupAux fuel l).Nodup := by
  induction fuel with
  | zero =>
    intro l hl
    have : l = [] := List.eq_nil_of_length_eq_zero (Nat.le_zero.mp hl)
    subst this
    simp [firstDedupAux]
  | succ f ih =>
    intro l hl
    cases l with
    | nil => simp [firstDedupAux]
    | cons b t =>
      have hlen : (t.filter (fun x => !(x == b))).length ≤ f := by
        have h1 := List.length_filter_le (fun x => !(x == b)) t
        simp only [List.length_cons] at hl
        omega
      simp only [firstDedupAux, List.nodup_cons]
      refine ⟨?_, ih _ hlen⟩
      intro hmem
      rw [firstDedupAux_mem f _ hlen b] at hmem
      have h2 := (List.mem_filter.mp hmem).2
      simp at h2

theorem firstDedup_mem (l : List JsVal) (a : JsVal) : a ∈ firstDedup l ↔ a ∈ l :=
  firstDedupAux_mem l.length l (le_refl _) a

theorem firstDedup_nodup (l : List JsVal) : (firstDedup l).Nodup :=
  firstDedupAux_nodup l.length l (le_refl _)

/-- C8 amended: the persisted summary holds the total item count and the
two ingredient-presence counts, which always sum to the total; its category
list holds exactly the distinct category values of the items, each once,
sorted by the default Array comparator, i.e. lexicographically by string
conversion rather than numerically by code. -/
theorem c8_summary_amended (items : List UItem) :
    (summaryOf items).totalItems = items.length ∧
    (summaryOf items).itemsWithBlueprints + (summaryOf items).itemsWithoutBlueprints
      = (summaryOf items).totalItems ∧
    (∀ c, c ∈ (summaryOf items).categories ↔ c ∈ items.map (fun it => it.category)) ∧
    (summaryOf items).categories.Nodup ∧
    List.Sorted jsLe (summaryOf items).categories := by
  haveI : IsTotal JsVal jsLe :=
    ⟨fun a b => charListLeb_total (jsValStr a).toList (jsValStr b).toList⟩
  haveI : IsTrans JsVal jsLe :=
    ⟨fun a b c h1 h2 =>
      charListLeb_trans (jsValStr a).toList (jsValStr b).toList (jsValStr c).toList h1 h2⟩
  have hperm : List.Perm
      (List.insertionSort jsLe (firstDedup (items.map (fun it => it.category))))
      (firstDedup (items.map (fun it => it.category))) := List.perm_insertionSort jsLe _
  refine ⟨rfl, filter_length_partition items, ?_, ?_, ?_⟩
  · intro c
    simp only [summaryOf]
    rw [hperm.mem_iff, firstDedup_mem]
  · exact hperm.nodup_iff.mpr (firstDedup_nodup _)
  · exact List.sorted_insertionSort jsLe _

/-- C8 counterexample: the persisted category list of items with codes 2 and
10 is [10, 2] (lexicographic by string conversion), not the ascending code
order [2, 10] the claim describes. -/
theorem c8_counterexample :
    (summaryOf [c8item1, c8item2]).categories = [jnum 10, jnum 2] ∧
    (summaryOf [c8item1, c8item2]).categories ≠ [jnum 2, jnum 10] := by
  decide
